import Mathlib

/-!
Verification of the skin-weight bookkeeping logic of the maya_utils
repository (file skinning.py).  Pure routines (the fixed-index weight
rescaling, the weight-dictionary accessors, the flattening step) are
embedded directly; the deformer API of the host application (skinCluster
queries/edits, setAttr, setWeights) is embedded as explicit state
transitions over a small cluster/scene state, following the call sites in
the source.  Float arithmetic is modelled by exact rationals.
-/

namespace Skinning

/-- Embedding of normalize (skinning.py lines 263-278).  Every entry except
the one at `unchanged_index` is rescaled so that the list sums to one while
the fixed entry is kept; when the other entries total zero the scaled
branch is replaced by a plain multiplication.  The Python expression
`values[unchanged_index]` (valid index at every call site) is modelled by
`List.getD`. -/
def normalize (values : List ℚ) (unchanged_index : ℕ) : List ℚ :=
  let remaining : ℚ := 1 - values.getD unchanged_index 0
  let total_except_remaining : ℚ := values.sum - values.getD unchanged_index 0
  if total_except_remaining ≠ 0 then
    values.mapIdx fun idx value =>
      if idx ≠ unchanged_index then value * remaining / total_except_remaining else value
  else
    values.mapIdx fun idx value =>
      if idx ≠ unchanged_index then value * remaining else value

theorem getD_mapIdx (f : ℕ → ℚ → ℚ) (l : List ℚ) (i : ℕ) (h : i < l.length) :
    (l.mapIdx f).getD i 0 = f i (l.getD i 0) := by
  have h' : i < (l.mapIdx f).length := by
    simp only [List.length_mapIdx]
    exact h
  rw [List.getD_eq_getElem _ _ h', List.getD_eq_getElem _ _ h]
  have hg := List.get_mapIdx l f i h
  simp only [List.get_eq_getElem] at hg
  exact hg

theorem sum_mapIdx_scale (c : ℚ) (k : ℕ) (l : List ℚ) :
    (l.mapIdx fun idx value => if idx ≠ k then value * c else value).sum
      = c * l.sum + (1 - c) * l.getD k 0 := by
  induction l using List.list_reverse_induction with
  | base => simp
  | ind l e ih =>
    rw [List.mapIdx_append_one, List.sum_append, List.sum_append, ih]
    rcases lt_trichotomy k l.length with hk | hk | hk
    · rw [List.getD_append _ _ _ _ hk, if_pos (Nat.ne_of_gt hk)]
      simp only [List.sum_cons, List.sum_nil]
      ring
    · subst hk
      rw [List.getD_append_right _ _ _ _ (le_refl _), Nat.sub_self,
        List.getD_eq_default _ _ (le_refl _), if_neg (by simp)]
      simp only [List.getD_cons_zero, List.sum_cons, List.sum_nil]
      ring
    · rw [List.getD_eq_default _ _ (Nat.le_of_lt hk),
        List.getD_eq_default _ _ (by simp; omega), if_pos (Nat.ne_of_lt hk)]
      simp only [List.sum_cons, List.sum_nil]
      ring

theorem normalize_length (v : List ℚ) (k : ℕ) : (normalize v k).length = v.length := by
  unfold normalize
  dsimp only
  split <;> simp [List.length_mapIdx]

theorem normalize_getD_fixed (v : List ℚ) (k : ℕ) (hk : k < v.length) :
    (normalize v k).getD k 0 = v.getD k 0 := by
  unfold normalize
  dsimp only
  split <;> rw [getD_mapIdx _ _ _ hk] <;> simp

theorem normalize_getD_other (v : List ℚ) (k i : ℕ) (hi : i < v.length) (hik : i ≠ k) :
    (normalize v k).getD i 0 =
      if v.sum - v.getD k 0 ≠ 0 then
        v.getD i 0 * (1 - v.getD k 0) / (v.sum - v.getD k 0)
      else v.getD i 0 * (1 - v.getD k 0) := by
  unfold normalize
  dsimp only
  split <;> rename_i h <;> rw [getD_mapIdx _ _ _ hi, if_pos hik]

theorem normalize_sum_of_ne (v : List ℚ) (k : ℕ) (_hk : k < v.length)
    (h : v.sum - v.getD k 0 ≠ 0) : (normalize v k).sum = 1 := by
  unfold normalize
  dsimp only
  rw [if_pos h]
  have hfun :
      (fun idx value =>
          if idx ≠ k then value * (1 - v.getD k 0) / (v.sum - v.getD k 0) else value)
        = fun idx (value : ℚ) =>
          if idx ≠ k then value * ((1 - v.getD k 0) / (v.sum - v.getD k 0)) else value := by
    funext idx value
    by_cases hidx : idx ≠ k <;> simp [hidx, mul_div_assoc]
  rw [hfun, sum_mapIdx_scale]
  have h2 : ∀ s a : ℚ, s - a ≠ 0 →
      (1 - a) / (s - a) * s + (1 - (1 - a) / (s - a)) * a = 1 := by
    intro s a hsa
    field_simp
    ring
  exact h2 v.sum (v.getD k 0) h

/-- C1: for a weight vector `v` and a valid fixed index `k` with
`sum v - v k` nonzero, `normalize` keeps the fixed entry exactly and the
result sums to one (exactly, in the rational model of float arithmetic). -/
theorem normalize_keeps_fixed_and_sums_to_one (v : List ℚ) (k : ℕ)
    (hk : k < v.length) (h : v.sum - v.getD k 0 ≠ 0) :
    (normalize v k).getD k 0 = v.getD k 0 ∧ (normalize v k).sum = 1 :=
  ⟨normalize_getD_fixed v k hk, normalize_sum_of_ne v k hk h⟩

/-- Witness for C1 at the concrete vector [2, 1] with fixed index 0. -/
theorem normalize_keeps_fixed_and_sums_to_one_witness :
    ((0 : ℕ) < ([(2 : ℚ), 1]).length ∧
      ([(2 : ℚ), 1]).sum - ([(2 : ℚ), 1]).getD 0 0 ≠ 0) ∧
    ((normalize [(2 : ℚ), 1] 0).getD 0 0 = ([(2 : ℚ), 1]).getD 0 0 ∧
      (normalize [(2 : ℚ), 1] 0).sum = 1) :=
  ⟨⟨by norm_num, by norm_num⟩,
    normalize_keeps_fixed_and_sums_to_one [(2 : ℚ), 1] 0 (by norm_num) (by norm_num)⟩

/-- C2: the per-entry formula of `normalize` — a non-fixed entry `v i`
becomes `v i * (1 - fixed) / other_total` when `other_total` is nonzero and
`v i * (1 - fixed)` otherwise — together with the concrete example
`normalize [0.3, 1.4] 0 = [0.3, 0.7]`. -/
theorem normalize_formula_and_example (v : List ℚ) (k i : ℕ)
    (hi : i < v.length) (hik : i ≠ k) :
    ((normalize v k).getD i 0 =
      if v.sum - v.getD k 0 ≠ 0 then
        v.getD i 0 * (1 - v.getD k 0) / (v.sum - v.getD k 0)
      else v.getD i 0 * (1 - v.getD k 0)) ∧
    normalize [(3 : ℚ)/10, 14/10] 0 = [3/10, 7/10] := by
  refine ⟨normalize_getD_other v k i hi hik, ?_⟩
  simp only [normalize, List.mapIdx_cons, List.mapIdx_nil, List.sum_cons, List.sum_nil,
    List.getD_cons_zero]
  norm_num

/-- Witness for C2 at the vector [3/10, 14/10], fixed index 0, entry 1. -/
theorem normalize_formula_and_example_witness :
    ((1 : ℕ) < ([(3 : ℚ)/10, 14/10]).length ∧ (1 : ℕ) ≠ 0) ∧
    (((normalize [(3 : ℚ)/10, 14/10] 0).getD 1 0 =
      if ([(3 : ℚ)/10, 14/10]).sum - ([(3 : ℚ)/10, 14/10]).getD 0 0 ≠ 0 then
        ([(3 : ℚ)/10, 14/10]).getD 1 0 * (1 - ([(3 : ℚ)/10, 14/10]).getD 0 0) /
          (([(3 : ℚ)/10, 14/10]).sum - ([(3 : ℚ)/10, 14/10]).getD 0 0)
      else ([(3 : ℚ)/10, 14/10]).getD 1 0 * (1 - ([(3 : ℚ)/10, 14/10]).getD 0 0)) ∧
    normalize [(3 : ℚ)/10, 14/10] 0 = [3/10, 7/10]) :=
  ⟨⟨by norm_num, by norm_num⟩,
    normalize_formula_and_example [(3 : ℚ)/10, 14/10] 0 1 (by norm_num) (by norm_num)⟩

/-- C9: on a vector with non-negative entries whose fixed entry is at most
one, `normalize` preserves the length and returns only non-negative
entries. -/
theorem normalize_preserves_shape_and_nonneg (v : List ℚ) (k : ℕ)
    (hk : k < v.length) (hnn : ∀ x ∈ v, 0 ≤ x) (hfix : v.getD k 0 ≤ 1) :
    (normalize v k).length = v.length ∧
      ∀ i, i < (normalize v k).length → 0 ≤ (normalize v k).getD i 0 := by
  refine ⟨normalize_length v k, ?_⟩
  intro i hi
  rw [normalize_length] at hi
  have hmem : v.getD i 0 ∈ v := by
    rw [List.getD_eq_getElem _ _ hi]
    exact List.getElem_mem _
  have hkmem : v.getD k 0 ∈ v := by
    rw [List.getD_eq_getElem _ _ hk]
    exact List.getElem_mem _
  have hknn : 0 ≤ v.getD k 0 := hnn _ hkmem
  have hrem : 0 ≤ 1 - v.getD k 0 := by linarith
  by_cases hik : i = k
  · subst hik
    rw [normalize_getD_fixed v i hi]
    exact hnn _ hmem
  · rw [normalize_getD_other v k i hi hik]
    have hvi : 0 ≤ v.getD i 0 := hnn _ hmem
    have hle : v.getD k 0 ≤ v.sum := List.single_le_sum hnn _ hkmem
    have htot : 0 ≤ v.sum - v.getD k 0 := by linarith
    split
    · rename_i hne
      have hpos : 0 < v.sum - v.getD k 0 := lt_of_le_of_ne htot (Ne.symm hne)
      exact div_nonneg (mul_nonneg hvi hrem) (le_of_lt hpos)
    · exact mul_nonneg hvi hrem

/-- Witness for C9 at the vector [1, 0] with fixed index 0. -/
theorem normalize_preserves_shape_and_nonneg_witness :
    ((0 : ℕ) < ([(1 : ℚ), 0]).length ∧ (∀ x ∈ [(1 : ℚ), 0], 0 ≤ x) ∧
      ([(1 : ℚ), 0]).getD 0 0 ≤ 1) ∧
    ((normalize [(1 : ℚ), 0] 0).length = ([(1 : ℚ), 0]).length ∧
      ∀ i, i < (normalize [(1 : ℚ), 0] 0).length →
        0 ≤ (normalize [(1 : ℚ), 0] 0).getD i 0) :=
  ⟨⟨by norm_num, by norm_num, by norm_num⟩,
    normalize_preserves_shape_and_nonneg [(1 : ℚ), 0] 0 (by norm_num) (by norm_num)
      (by norm_num)⟩

/-- Wt models one element of a Python list that may hold either a float or
a nested list of floats; the flattening step of SkinInfo can produce
both kinds of element. -/
inductive Wt where
  | num (q : ℚ)
  | lst (l : List ℚ)
deriving DecidableEq

/-- Embedding of SkinInfo.get_complete_weights_list (skinning.py lines
604-626): walks the weight dictionary in order; a vector with fewer than
two entries is first wrapped in an extra list (so extending the
accumulator appends the vector itself as a single element), a longer
vector is extended element by element. -/
def get_complete_weights_list (weight_dict : List (ℕ × List ℚ)) : List Wt :=
  weight_dict.foldl
    (fun complete_weights_list p =>
      if p.2.length < 2 then complete_weights_list ++ [Wt.lst p.2]
      else complete_weights_list ++ p.2.map Wt.num) []

/-- Embedding of SkinInfo.get_weight_list_of_vertex (lines 682-683):
dictionary lookup returning None when the vertex key is absent. -/
def get_weight_list_of_vertex (weight_dict : List (ℕ × List ℚ)) (vertex_number : ℕ) :
    Option (List ℚ) :=
  (weight_dict.find? (fun p => p.1 == vertex_number)).map (fun p => p.2)

/-- Embedding of SkinInfo.set_weights_list_of_vertex (lines 685-686):
plain ordered-dictionary assignment — replaces the entry in place when the
key exists and appends it otherwise.  The source performs no validation of
the vector length. -/
def set_weights_list_of_vertex (weight_dict : List (ℕ × List ℚ)) (vertex_number : ℕ)
    (weight_list : List ℚ) : List (ℕ × List ℚ) :=
  if weight_dict.any (fun p => p.1 == vertex_number) then
    weight_dict.map (fun p => if p.1 == vertex_number then (p.1, weight_list) else p)
  else weight_dict ++ [(vertex_number, weight_list)]

/-- C5 counterexample: on a store with two influences, writing the
one-entry vector [1] for vertex 0 is accepted and replaces the stored
vector, although its length differs from the influence count. -/
theorem set_weights_list_of_vertex_no_length_check :
    get_weight_list_of_vertex (set_weights_list_of_vertex [(0, [1, 0])] 0 [1]) 0
        = some [1] ∧
      ([(1 : ℚ)]).length ≠ ([(1 : ℚ), 0]).length := by
  refine ⟨rfl, by decide⟩

/-- C5 amended: set_weights_list_of_vertex stores the given vector
unconditionally — afterwards the vertex maps to exactly the vector that
was passed in, whatever its length. -/
theorem set_weights_list_of_vertex_stores_unconditionally
    (weight_dict : List (ℕ × List ℚ)) (vertex_number : ℕ) (weight_list : List ℚ) :
    get_weight_list_of_vertex
        (set_weights_list_of_vertex weight_dict vertex_number weight_list) vertex_number
      = some weight_list := by
  induction weight_dict with
  | nil => simp [set_weights_list_of_vertex, get_weight_list_of_vertex]
  | cons p ps ih =>
    by_cases hp : p.1 = vertex_number
    · simp [set_weights_list_of_vertex, get_weight_list_of_vertex, hp]
    · have hb : (p.1 == vertex_number) = false := by
        simp [hp]
      by_cases han : ps.any (fun q => q.1 == vertex_number)
      · simp only [set_weights_list_of_vertex, List.any_cons, hb, Bool.false_or, han,
          List.map_cons, get_weight_list_of_vertex, List.find?_cons] at ih ⊢
        simpa [hb] using ih
      · simp only [set_weights_list_of_vertex, List.any_cons, hb, Bool.false_or, han,
          List.cons_append, get_weight_list_of_vertex, List.find?_cons] at ih ⊢
        simpa [hb] using ih

/-- C6: flattening a three-vertex, single-influence weight dictionary.
Because each per-vertex vector has length one, the code wraps it and the
extend call appends the vector itself, so the result is a list of three
nested one-element lists — not the flat float list [1.0, 1.0, 1.0] that
the docstring of get_complete_weights_list promises for this input. -/
theorem get_complete_weights_list_single_influence_nested :
    get_complete_weights_list [(0, [1]), (1, [1]), (2, [1])]
        = [Wt.lst [1], Wt.lst [1], Wt.lst [1]] ∧
      (Wt.lst [1] : Wt) ≠ Wt.num 1 :=
  ⟨rfl, by decide⟩

/-- VtxResult models the two possible shapes returned by
get_vertices_influenced_by: full vertex-name strings or bare vertex
numbers. -/
inductive VtxResult where
  | names (l : List String)
  | numbers (l : List ℕ)
deriving DecidableEq

/-- Per-vertex collection loop of get_vertices_influenced_by (lines
703-706): for each vertex in dictionary order and each queried joint
index, the vertex number is appended whenever its weight for that
influence is positive (so a vertex can appear once per matching joint). -/
def influenced_vertices (weight_dict : List (ℕ × List ℚ)) (joint_indices : List ℕ) :
    List ℕ :=
  weight_dict.foldl
    (fun acc p =>
      acc ++ (joint_indices.filter (fun ji => decide (0 < p.2.getD ji 0))).map
        (fun _ => p.1)) []

/-- Embedding of SkinInfo.get_vertices_influenced_by (lines 688-712), with
the joint-to-index resolution factored out (it is get_index_of_joint,
modelled separately on the cluster state).  The two boolean flags select
the return shape; when both are false the Python function falls off the
end and returns None. -/
def get_vertices_influenced_by (mesh_name : String) (weight_dict : List (ℕ × List ℚ))
    (joint_indices : List ℕ) (return_full_vertex_name return_numbers : Bool) :
    Option VtxResult :=
  let influenced := influenced_vertices weight_dict joint_indices
  if return_full_vertex_name then
    some (VtxResult.names (influenced.map
      (fun number => mesh_name ++ ".vtx[" ++ toString number ++ "]")))
  else if return_numbers then some (VtxResult.numbers influenced)
  else none

/-- C10: get_vertices_influenced_by returns the full vertex names whenever
return_full_vertex_name is true, the bare vertex numbers when
return_full_vertex_name is false and return_numbers is true, and None when
both flags are false — even on a store that does have influenced vertices
(concrete final conjunct). -/
theorem get_vertices_influenced_by_flag_modes (mesh_name : String)
    (weight_dict : List (ℕ × List ℚ)) (joint_indices : List ℕ) :
    (∀ return_numbers,
        get_vertices_influenced_by mesh_name weight_dict joint_indices true return_numbers
          = some (VtxResult.names ((influenced_vertices weight_dict joint_indices).map
              (fun number => mesh_name ++ ".vtx[" ++ toString number ++ "]")))) ∧
    get_vertices_influenced_by mesh_name weight_dict joint_indices false true
        = some (VtxResult.numbers (influenced_vertices weight_dict joint_indices)) ∧
    get_vertices_influenced_by mesh_name weight_dict joint_indices false false = none ∧
    (influenced_vertices [(0, [(1 : ℚ)])] [0] ≠ [] ∧
      get_vertices_influenced_by "pCube1" [(0, [(1 : ℚ)])] [0] false false = none) := by
  refine ⟨fun _ => rfl, rfl, rfl, ?_, rfl⟩
  decide

/-- SkinClusterState models the slice of the host deformer state that
add_joint_to_skin_cluster and SkinInfo.get_index_of_joint read and write:
the ordered influence list (influenceObjects), the per-influence
lock-influence-weights attribute (liw, in registration order) and the
per-vertex weight rows, one column per influence. -/
structure SkinClusterState where
  influences : List String
  liw : List (String × Bool)
  weights : List (List ℚ)
deriving DecidableEq

/-- Host call skinCluster(edit=True, addInfluence=joint, weight=0,
lockWeights=True), as invoked at skinning.py line 87: the joint is
appended to the influence list with its weights locked, and every vertex
gets an initial weight of zero for it. -/
def skinCluster_addInfluence (st : SkinClusterState) (joint : String) : SkinClusterState :=
  { influences := st.influences ++ [joint]
    liw := st.liw ++ [(joint, true)]
    weights := st.weights.map (fun row => row ++ [0]) }

/-- Host call setAttr on the liw attribute of the joint (skinning.py line 88):
overwrites the lock-influence-weights flag of the joint. -/
def setAttr_liw (st : SkinClusterState) (joint : String) (value : Bool) : SkinClusterState :=
  { st with liw := st.liw.map (fun p => if p.1 == joint then (p.1, value) else p) }

/-- Embedding of add_joint_to_skin_cluster (skinning.py lines 78-88): when
the joint is not yet an influence it is added with weight 0 and locked
weights, and its liw attribute is then immediately set back to False. -/
def add_joint_to_skin_cluster (st : SkinClusterState) (joint : String) : SkinClusterState :=
  if joint ∈ st.influences then st
  else setAttr_liw (skinCluster_addInfluence st joint) joint false

/-- Embedding of SkinInfo.get_index_of_joint (skinning.py lines 635-644).
The try/except/finally of the source amounts to: look the joint up among
the influence objects, add it to the cluster (followed by a reinitialize)
when the lookup raises, and in every case return the index of the joint in
the influence list current at that point — the return statement in the
finally block overrides the one in the try block. -/
def get_index_of_joint (st : SkinClusterState) (joint : String) :
    SkinClusterState × ℕ :=
  if joint ∈ st.influences then (st, st.influences.indexOf joint)
  else
    let st1 := add_joint_to_skin_cluster st joint
    (st1, st1.influences.indexOf joint)

/-- C7: get_index_of_joint is idempotent — a second call with the same
joint on the state left by the first call (no intervening influence-list
mutation) returns the same state and the same index. -/
theorem get_index_of_joint_idempotent (st : SkinClusterState) (joint : String) :
    get_index_of_joint (get_index_of_joint st joint).1 joint
      = get_index_of_joint st joint := by
  by_cases h : joint ∈ st.influences
  · simp [get_index_of_joint, h]
  · have hmem : joint ∈ (add_joint_to_skin_cluster st joint).influences := by
      simp [add_joint_to_skin_cluster, h, skinCluster_addInfluence, setAttr_liw]
    simp [get_index_of_joint, h, hmem]

/-- C8 counterexample: looking up the absent joint "b" registers it, but
its lock-influence-weights flag ends up False (the source sets liw back to
False right after the locked add), so the new influence is not left
locked. -/
theorem get_index_of_joint_unlocks_new_influence :
    (get_index_of_joint ⟨["a"], [("a", false)], [[1]]⟩ "b").1.liw
        = [("a", false), ("b", false)] ∧
      (get_index_of_joint ⟨["a"], [("a", false)], [[1]]⟩ "b").1.liw.lookup "b"
        ≠ some true :=
  ⟨rfl, by decide⟩

/-- C8 amended: for an absent joint, get_index_of_joint registers it at
the end of the influence list with initial weight zero for every vertex,
locks its weights only for the duration of the add call (the liw flag is
reset to False immediately afterwards), and returns the index of the new
influence. -/
theorem get_index_of_joint_absent (st : SkinClusterState) (joint : String)
    (h : joint ∉ st.influences) (hliw : ∀ p ∈ st.liw, p.1 ≠ joint) :
    (get_index_of_joint st joint).1.influences = st.influences ++ [joint] ∧
    (get_index_of_joint st joint).1.weights
        = st.weights.map (fun row => row ++ [0]) ∧
    (get_index_of_joint st joint).1.liw = st.liw ++ [(joint, false)] ∧
    (get_index_of_joint st joint).2 = st.influences.length := by
  have hmap : st.liw.map (fun p => if p.1 == joint then (p.1, false) else p) = st.liw := by
    conv_rhs => rw [← List.map_id st.liw]
    apply List.map_congr_left
    intro a ha
    simp [hliw a ha]
  refine ⟨?_, ?_, ?_, ?_⟩ <;>
    simp only [get_index_of_joint, add_joint_to_skin_cluster, skinCluster_addInfluence,
      setAttr_liw, h, if_neg, List.map_append, hmap]
  · simp [h]
  · simp [h]
  · simp [h, hmap]
  · simp only [h, ite_false]
    rw [List.indexOf_append_of_not_mem h, List.indexOf_cons_self, Nat.add_zero]

/-- Witness for C8 amended at the one-influence cluster state from the
counterexample. -/
theorem get_index_of_joint_absent_witness :
    (("b" ∉ (["a"] : List String)) ∧
      (∀ p ∈ [("a", false)], (p : String × Bool).1 ≠ "b")) ∧
    ((get_index_of_joint ⟨["a"], [("a", false)], [[1]]⟩ "b").1.influences
        = ["a"] ++ ["b"] ∧
      (get_index_of_joint ⟨["a"], [("a", false)], [[1]]⟩ "b").1.weights
        = [[(1 : ℚ)]].map (fun row => row ++ [0]) ∧
      (get_index_of_joint ⟨["a"], [("a", false)], [[1]]⟩ "b").1.liw
        = [("a", false)] ++ [("b", false)] ∧
      (get_index_of_joint ⟨["a"], [("a", false)], [[1]]⟩ "b").2
        = (["a"] : List String).length) :=
  ⟨⟨by decide, by decide⟩,
    get_index_of_joint_absent ⟨["a"], [("a", false)], [[1]]⟩ "b" (by decide) (by decide)⟩

/-- SkinBinding models a skinCluster deformer binding on the mesh: its
ordered influence (joint) names and the per-vertex weight rows, one column
per influence. -/
structure SkinBinding where
  influences : List String
  weights : List (List ℚ)
deriving DecidableEq

/-- Scene models the slice of the host scene state that the save/load path
touches: the names that resolve in the scene, the vertex count of the mesh
and its skin binding when it has one. -/
structure Scene where
  joints : List String
  vertexCount : ℕ
  binding : Option SkinBinding
deriving DecidableEq

/-- SkinDict models the skin_info_dict snapshot built by
SkinInfo.__get_skin_info_dict (skinning.py lines 576-589): the per-vertex
weight dictionary (string vertex keys modelled as numbers, inserted in
ascending vertex order) and the influence name list.  mesh_name,
vertex_positions and the influence index list are also stored by the
source but never read back by the load path, and are omitted. -/
structure SkinDict where
  weight_dict : List (ℕ × List ℚ)
  influence_names : List String
deriving DecidableEq

/-- Capture of the snapshot from a live binding (lines 576-589): vertex i
maps to weight row i and the influence names are those of the binding, in
order. -/
def get_skin_info_dict (b : SkinBinding) : SkinDict :=
  { weight_dict := b.weights.enum
    influence_names := b.influences }

/-- Modelled from the spec: io_utils.write_pickle / write_json (module
utils/io_utils, not under src) — save "serializes {weight mapping,
influence names, mesh name, vertex positions} to path"; the encoding is
modelled as faithful, the file holding exactly the snapshot record. -/
def write_pickle (d : SkinDict) : SkinDict := d

/-- Modelled from the spec: io_utils.read_pickle / read_json with ordered
dictionaries (module utils/io_utils, not under src) — load "deserializes
the snapshot"; inverse of write_pickle. -/
def read_pickle (d : SkinDict) : SkinDict := d

/-- Embedding of SkinInfo.save_skin_to_file (lines 655-659): writes the
snapshot record to the file (binary and JSON encodings are modelled
alike). -/
def save_skin_to_file (d : SkinDict) : SkinDict := write_pickle d

/-- Conversion of the flattened weight sequence to the flat float list the
host API consumes: a nested (non-float) element is a host-side type
error. -/
def toFloats : List Wt → Option (List ℚ)
  | [] => some []
  | Wt.num q :: rest => (toFloats rest).map (fun t => q :: t)
  | Wt.lst _ :: _ => none

/-- Host renormalization of one vertex row (skinCluster
forceNormalizeWeights): rescale the row to sum one unless it sums to
zero. -/
def force_normalize (row : List ℚ) : List ℚ :=
  if row.sum = 0 then row else row.map (fun w => w / row.sum)

/-- Host call skinCluster.setWeights(mesh, influence_list, weights_list,
normalize=True) followed by forceNormalizeWeights, as performed by
SkinInfo.set_weights (lines 628-633): consumes a flat float sequence of
exactly vertices x influences entries, entry v*N+j becoming the weight of
vertex v for influence j, after which every vertex row is renormalized; a
nested element or a length mismatch is a host-side error. -/
def setWeights_model (b : SkinBinding) (flat : List Wt) : Option SkinBinding :=
  match toFloats flat with
  | none => none
  | some fs =>
    if fs.length = b.weights.length * b.influences.length then
      some { b with weights :=
        (List.range b.weights.length).map (fun v =>
          force_normalize ((List.range b.influences.length).map
            (fun j => fs.getD (v * b.influences.length + j) 0))) }
    else none

/-- Final step of load_skin_from_file (line 680): flatten the weight
dictionary of the snapshot and write it to the binding of the mesh through
setWeights. -/
def apply_set_weights (sc : Scene) (d : SkinDict) : Scene × Option String :=
  match sc.binding with
  | none => (sc, some "no skin cluster")
  | some b =>
    match setWeights_model b (get_complete_weights_list d.weight_dict) with
    | none => (sc, some "setWeights type or length error")
    | some b2 => ({ sc with binding := some b2 }, none)

/-- Embedding of SkinInfo.load_skin_from_file (lines 661-680), with
explicit fuel for the unbounded self-recursion of the source.  The steps
mirror the source: (1) when the mesh has no skin cluster, build one from
the influence names of the snapshot — a host lookup error when a name does not
resolve in the scene (the fresh binding starts with zero weight rows; the
actual host bind-pose weights are irrelevant here because step (3)
overwrites every entry, and the maximumInfluences=4 cap only limits those
bind-pose weights); (2) when the current influence names differ from those of
the snapshot, unbind the mesh and recurse; (3) apply the flattened snapshot
weights through setWeights.  An error aborts the remaining steps but
keeps the scene mutations already performed, like the propagating Python
exception. -/
def load_skin_from_file : ℕ → Scene → SkinDict → Scene × Option String
  | 0, sc, _ => (sc, some "maximum recursion depth exceeded")
  | fuel + 1, sc, d =>
    let step1 : Scene × Option String :=
      match sc.binding with
      | some _ => (sc, none)
      | none =>
        if d.influence_names.all (fun joint => sc.joints.contains joint) then
          let fresh : SkinBinding :=
            { influences := d.influence_names
              weights := List.replicate sc.vertexCount
                (List.replicate d.influence_names.length 0) }
          ({ sc with binding := some fresh }, none)
        else (sc, some "lookup error")
    match step1 with
    | (sc1, some e) => (sc1, some e)
    | (sc1, none) =>
      match sc1.binding with
      | none => (sc1, some "no skin cluster")
      | some b =>
        if b.influences ≠ d.influence_names then
          match load_skin_from_file fuel ({ sc1 with binding := none }) d with
          | (sc2, some e) => (sc2, some e)
          | (sc2, none) => apply_set_weights sc2 d
        else apply_set_weights sc1 d

/-- C3: save followed by load on the same mesh with unchanged influence
ordering, evaluated at a two-vertex mesh with a single influence.  The
flattening step hands setWeights a list of nested one-element lists, so
the load aborts with a host-side type error instead of re-applying the
captured weight mapping. -/
theorem save_load_roundtrip_single_influence_fails :
    load_skin_from_file 2 ⟨["a"], 2, some ⟨["a"], [[1], [1]]⟩⟩
        (read_pickle (save_skin_to_file (get_skin_info_dict ⟨["a"], [[1], [1]]⟩)))
      = (⟨["a"], 2, some ⟨["a"], [[1], [1]]⟩⟩,
          some "setWeights type or length error") := by
  rfl

/-- C4 counterexample: loading a snapshot whose influence name "b" does
not resolve, onto a mesh that is currently skinned to "a", raises the
lookup error only after the existing binding has been unbound — the
deformer binding is not left unchanged. -/
theorem load_unresolvable_unbinds_existing_binding :
    load_skin_from_file 2 ⟨["a"], 1, some ⟨["a"], [[1]]⟩⟩ ⟨[(0, [1])], ["b"]⟩
        = (⟨["a"], 1, none⟩, some "lookup error") ∧
      (⟨["a"], 1, none⟩ : Scene) ≠ ⟨["a"], 1, some ⟨["a"], [[1]]⟩⟩ :=
  ⟨rfl, by decide⟩

theorem load_skin_from_file_no_binding (fuel : ℕ) (sc : Scene) (d : SkinDict)
    (hb : sc.binding = none)
    (hall : d.influence_names.all (fun joint => sc.joints.contains joint) = false) :
    load_skin_from_file (fuel + 1) sc d = (sc, some "lookup error") := by
  simp only [load_skin_from_file, hb, hall]
  rw [if_neg Bool.false_ne_true]

/-- C4 amended: when a snapshot influence name does not resolve in the
scene, load fails with a lookup error and applies no weights; a mesh
without a binding is left unchanged, but a mesh whose binding is
well-formed (its influences resolve in the scene) has that binding unbound
before the failure. -/
theorem load_unresolvable_fails_with_lookup_error (fuel : ℕ) (sc : Scene)
    (d : SkinDict) (h : ∃ joint ∈ d.influence_names, joint ∉ sc.joints)
    (hwf : ∀ b, sc.binding = some b → ∀ joint ∈ b.influences, joint ∈ sc.joints) :
    (load_skin_from_file (fuel + 2) sc d).2 = some "lookup error" ∧
    (load_skin_from_file (fuel + 2) sc d).1.joints = sc.joints ∧
    (sc.binding = none → (load_skin_from_file (fuel + 2) sc d).1 = sc) ∧
    (sc.binding ≠ none →
      (load_skin_from_file (fuel + 2) sc d).1 = { sc with binding := none }) := by
  have hall : d.influence_names.all (fun joint => sc.joints.contains joint) = false := by
    rcases h with ⟨j, hj, hnj⟩
    rw [List.all_eq_false]
    exact ⟨j, hj, by simpa using hnj⟩
  cases hb : sc.binding with
  | none =>
    have hres := load_skin_from_file_no_binding (fuel + 1) sc d hb hall
    rw [hres]
    exact ⟨rfl, rfl, fun _ => rfl, fun hcon => absurd rfl hcon⟩
  | some b =>
    have hne : b.influences ≠ d.influence_names := by
      intro heq
      rcases h with ⟨j, hj, hnj⟩
      exact hnj (hwf b hb j (heq ▸ hj))
    have hres : load_skin_from_file (fuel + 2) sc d
        = ({ sc with binding := none }, some "lookup error") := by
      simp only [load_skin_from_file, hb, if_pos hne, hall]
      rw [if_neg Bool.false_ne_true]
    rw [hres]
    exact ⟨rfl, rfl, fun hcon => absurd hcon (by simp), fun _ => rfl⟩

/-- Witness for C4 amended at a one-joint scene whose mesh is skinned to
"a" while the snapshot names the missing joint "b". -/
theorem load_unresolvable_fails_with_lookup_error_witness :
    ((∃ joint ∈ (["b"] : List String), joint ∉ (["a"] : List String)) ∧
      (∀ b, (⟨["a"], 1, some ⟨["a"], [[1]]⟩⟩ : Scene).binding = some b →
        ∀ joint ∈ b.influences, joint ∈ (["a"] : List String))) ∧
    ((load_skin_from_file 2 ⟨["a"], 1, some ⟨["a"], [[1]]⟩⟩ ⟨[(0, [1])], ["b"]⟩).2
        = some "lookup error" ∧
      (load_skin_from_file 2 ⟨["a"], 1, some ⟨["a"], [[1]]⟩⟩ ⟨[(0, [1])], ["b"]⟩).1.joints
        = (⟨["a"], 1, some ⟨["a"], [[1]]⟩⟩ : Scene).joints ∧
      ((⟨["a"], 1, some ⟨["a"], [[1]]⟩⟩ : Scene).binding = none →
        (load_skin_from_file 2 ⟨["a"], 1, some ⟨["a"], [[1]]⟩⟩ ⟨[(0, [1])], ["b"]⟩).1
          = ⟨["a"], 1, some ⟨["a"], [[1]]⟩⟩) ∧
      ((⟨["a"], 1, some ⟨["a"], [[1]]⟩⟩ : Scene).binding ≠ none →
        (load_skin_from_file 2 ⟨["a"], 1, some ⟨["a"], [[1]]⟩⟩ ⟨[(0, [1])], ["b"]⟩).1
          = { (⟨["a"], 1, some ⟨["a"], [[1]]⟩⟩ : Scene) with binding := none })) :=
  ⟨⟨by decide, by
      intro b hb
      have h2 : some (⟨["a"], [[1]]⟩ : SkinBinding) = some b := hb
      cases h2
      decide⟩,
    load_unresolvable_fails_with_lookup_error 0 ⟨["a"], 1, some ⟨["a"], [[1]]⟩⟩
      ⟨[(0, [1])], ["b"]⟩ (by decide)
      (by
        intro b hb
        have h2 : some (⟨["a"], [[1]]⟩ : SkinBinding) = some b := hb
        cases h2
        decide)⟩

end Skinning
